import Mathlib

/-!
Shallow embedding of tools/select_top10.py: a utility that reads a YAML
document with a top-level "issues" sequence, normalises each record's
priority / impact / estimate (direct field, then label scan, then default),
sorts records by the derived key (-priority_score, -impact_score,
estimate_score, original_index), truncates to a limit and writes the result.
File reading, YAML parsing and serialisation are abstracted: documents are
modelled as already-parsed values, the filesystem as a map from paths to
parsed documents.
-/

/-- Parsed YAML values as produced by the loader (floats do not occur in the
documents this tool handles and are not modelled). -/
inductive Yaml where
  | null : Yaml
  | bool (b : Bool) : Yaml
  | int (n : Int) : Yaml
  | str (s : String) : Yaml
  | list (xs : List Yaml) : Yaml
  | map (kvs : List (String × Yaml)) : Yaml

/-- An issue record: a Python dict with string keys, modelled as an
association list in key order (Python dicts have unique keys; lookup takes
the first binding). -/
abbrev Record := List (String × Yaml)

/-- Python dict.get k: the first binding of the key, if any. -/
def lookupY (k : String) : List (String × Yaml) → Option Yaml
  | [] => none
  | kv :: rest => if kv.1 = k then some kv.2 else lookupY k rest

/-- Python str.upper (the documents are ASCII; Char.toUpper matches Python
on ASCII). -/
def pyUpper (s : String) : String := String.mk (s.data.map Char.toUpper)

/-- Python str.lower. -/
def pyLower (s : String) : String := String.mk (s.data.map Char.toLower)

/-- Whether the first list is an initial segment of the second. -/
def isPrefixList : List Char → List Char → Bool
  | [], _ => true
  | _ :: _, [] => false
  | p :: ps, c :: cs => p == c && isPrefixList ps cs

/-- Python s.startswith(marker). -/
def pyStartsWith (s marker : String) : Bool := isPrefixList marker.data s.data

/-- Characters after the first colon. -/
def afterColonList : List Char → List Char
  | [] => []
  | c :: cs => if c == ':' then cs else afterColonList cs

/-- Python label.split(":", 1)[1]: the text after the first colon. Callers
guard on a marker that contains a colon, so one is present. -/
def afterColon (s : String) : String := String.mk (afterColonList s.data)

def DEFAULT_PRIORITY : String := "P3"

def DEFAULT_IMPACT : String := "Low"

def DEFAULT_ESTIMATE : String := "M"

def PRIORITY_ORDER : List (String × Int) := [("P1", 3), ("P2", 2), ("P3", 1)]

def IMPACT_ORDER : List (String × Int) := [("HIGH", 3), ("MEDIUM", 2), ("LOW", 1)]

def ESTIMATE_ORDER : List (String × Int) := [("XS", 1), ("S", 2), ("M", 3), ("L", 4), ("XL", 5)]

/-- Python dict.get(k, dflt) on a score table. The raising indexing
TABLE[key] used for the defaults is the same lookup on a key the table
contains. -/
def scoreGet (d : List (String × Int)) (k : String) (dflt : Int) : Int :=
  match d with
  | [] => dflt
  | kv :: rest => if kv.1 = k then kv.2 else scoreGet rest k dflt

/-- Value iterated by the label loop: issue.get("labels", []) or [].
The embedding covers records whose labels entry is absent, null or a
sequence (the shapes of the data model); labelsOK marks that domain. -/
def getLabels (issue : Record) : List Yaml :=
  match lookupY "labels" issue with
  | some (Yaml.list xs) => xs
  | _ => []

/-- Domain marker: the labels entry is absent, null, or a sequence. On this
domain the embedding agrees with the source exactly. -/
def labelsOK (issue : Record) : Bool :=
  match lookupY "labels" issue with
  | none => true
  | some Yaml.null => true
  | some (Yaml.list _) => true
  | _ => false

/-- The label-scanning loop shared by the priority and impact normalisers:
non-strings are skipped; on the first string whose lower-cased form starts
with the marker, the upper-cased text after its first colon is returned. -/
def scanLabels (marker : String) : List Yaml → Option String
  | [] => none
  | Yaml.str s :: rest =>
    if pyStartsWith (pyLower s) marker then some (pyUpper (afterColon s))
    else scanLabels marker rest
  | _ :: rest => scanLabels marker rest

/-- Embeds _normalise_priority. -/
def normalise_priority (issue : Record) : String :=
  match lookupY "priority" issue with
  | some (Yaml.str p) => pyUpper p
  | _ =>
    match scanLabels "priority:" (getLabels issue) with
    | some v => v
    | none => DEFAULT_PRIORITY

/-- Embeds _normalise_impact. -/
def normalise_impact (issue : Record) : String :=
  match lookupY "impact" issue with
  | some (Yaml.str s) => pyUpper s
  | _ =>
    match scanLabels "impact:" (getLabels issue) with
    | some v => v
    | none => pyUpper DEFAULT_IMPACT

/-- Embeds _normalise_estimate; there is no label fallback for estimates. -/
def normalise_estimate (issue : Record) : String :=
  match lookupY "estimate" issue with
  | some (Yaml.str s) => pyUpper s
  | _ => DEFAULT_ESTIMATE

/-- Priority score, as computed inside _sort_key:
PRIORITY_ORDER.get(priority, PRIORITY_ORDER[DEFAULT_PRIORITY]). -/
def priority_score (issue : Record) : Int :=
  scoreGet PRIORITY_ORDER (normalise_priority issue) (scoreGet PRIORITY_ORDER DEFAULT_PRIORITY 0)

/-- Impact score, as computed inside _sort_key:
IMPACT_ORDER.get(impact, IMPACT_ORDER[DEFAULT_IMPACT.upper()]). -/
def impact_score (issue : Record) : Int :=
  scoreGet IMPACT_ORDER (normalise_impact issue) (scoreGet IMPACT_ORDER (pyUpper DEFAULT_IMPACT) 0)

/-- Estimate score, as computed inside _sort_key:
ESTIMATE_ORDER.get(estimate, ESTIMATE_ORDER[DEFAULT_ESTIMATE]). -/
def estimate_score (issue : Record) : Int :=
  scoreGet ESTIMATE_ORDER (normalise_estimate issue) (scoreGet ESTIMATE_ORDER DEFAULT_ESTIMATE 0)

/-- Embeds _sort_key. -/
def sort_key (issue : Record) (index : Nat) : Int × Int × Int × Int :=
  (-priority_score issue, -impact_score issue, estimate_score issue, (index : Int))

/-- Lexicographic order on sort keys, as Python compares 4-tuples. -/
def keyLE (a b : Int × Int × Int × Int) : Bool :=
  decide (a.1 < b.1) || (decide (a.1 = b.1) && (decide (a.2.1 < b.2.1) ||
    (decide (a.2.1 = b.2.1) && (decide (a.2.2.1 < b.2.2.1) ||
      (decide (a.2.2.1 = b.2.2.1) && decide (a.2.2.2 ≤ b.2.2.2))))))

/-- Comparison used by the sort: the lambda item mapsto _sort_key(item[1],
item[0]) composed with the tuple order. -/
def issueLE (a b : Nat × Record) : Bool :=
  keyLE (sort_key a.2 a.1) (sort_key b.2 b.1)

/-- Lines 80-83 of select_top_issues: pair each issue with its original
index and sort by the key (Python sorted is a stable sort; here every key
is distinct in its index component, so the sorted order is unique). -/
def rank_issues (issues : List Record) : List (Nat × Record) :=
  (issues.enum).mergeSort issueLE

/-- Python list slice xs[:stop], including clamping and the negative-stop
meaning counted from the end. -/
def pySliceTo {α : Type} (xs : List α) (stop : Int) : List α :=
  if stop < 0 then xs.take ((xs.length : Int) + stop).toNat else xs.take stop.toNat

/-- Lines 80-85 of select_top_issues: the pure rank-and-truncate core. -/
def selectIssues (issues : List Record) (limit : Int) : List Record :=
  pySliceTo ((rank_issues issues).map Prod.snd) limit

/-- Outcome of select_top_issues on a parsed document: either a fatal
SystemExit carrying its message (no output written), or the output document
that gets written. The unmodelled constructor marks inputs outside the
embedding domain (an issues entry that is not a record of the data model). -/
inductive RunResult where
  | fatal (msg : String) : RunResult
  | written (doc : Yaml) : RunResult
  | unmodelled : RunResult

/-- Decodes one entry of the issues sequence into a record of the embedding
domain. -/
def decodeIssue : Yaml → Option Record
  | Yaml.map r => if labelsOK r then some r else none
  | _ => none

/-- Embeds select_top_issues (lines 71-89) on a parsed document: the two
input-shape guards, then rank, truncate and emit the output document
(written only when every issue is a record of the embedding domain). -/
def select_top_issues (data : Yaml) (limit : Int) : RunResult :=
  match data with
  | Yaml.map kvs =>
    match lookupY "issues" kvs with
    | none => RunResult.fatal "Input YAML must contain a top-level 'issues' sequence"
    | some (Yaml.list items) =>
      match items.mapM decodeIssue with
      | some records =>
        RunResult.written (Yaml.map [("issues", Yaml.list ((selectIssues records limit).map Yaml.map))])
      | none => RunResult.unmodelled
    | some _ => RunResult.fatal "'issues' must be a list"
  | _ => RunResult.fatal "Input YAML must contain a top-level 'issues' sequence"

/-- Outcome of the command-line entry point: which branch of main ran. Each
non-success branch returns exit code 1 and prints one diagnostic; fatal
raises SystemExit whose message goes to the error stream. -/
inductive MainResult where
  | usageError : MainResult
  | notFound (source : String) : MainResult
  | fatal (msg : String) : MainResult
  | success (target : String) (doc : Yaml) : MainResult
  | unmodelled : MainResult

/-- Exit code of a main outcome: 0 on success, 1 otherwise (SystemExit with
a string message exits with code 1). -/
def exitCode : MainResult → Int
  | MainResult.success _ _ => 0
  | _ => 1

/-- Embeds main (lines 92-108): argv is the full argument vector including
the program name; fs maps each existing input path to its parsed document.
The limit argument of select_top_issues is never supplied, so the default
10 is always used. -/
def main_run (argv : List String) (fs : String → Option Yaml) : MainResult :=
  if argv.length ≠ 3 then MainResult.usageError
  else
    let source := argv.getD 1 ""
    let target := argv.getD 2 ""
    match fs source with
    | none => MainResult.notFound source
    | some data =>
      match select_top_issues data 10 with
      | RunResult.fatal msg => MainResult.fatal msg
      | RunResult.written doc => MainResult.success target doc
      | RunResult.unmodelled => MainResult.unmodelled


/-! Basic lemmas about the comparison and the sort. -/

theorem keyLE_trans (a b c : Int × Int × Int × Int)
    (h1 : keyLE a b = true) (h2 : keyLE b c = true) : keyLE a c = true := by
  simp only [keyLE, Bool.or_eq_true, Bool.and_eq_true, decide_eq_true_eq] at h1 h2 ⊢
  omega

theorem keyLE_total (a b : Int × Int × Int × Int) : keyLE a b || keyLE b a := by
  simp only [keyLE, Bool.or_eq_true, Bool.and_eq_true, decide_eq_true_eq]
  omega

theorem issueLE_trans (a b c : Nat × Record) (h1 : issueLE a b) (h2 : issueLE b c) :
    issueLE a c :=
  keyLE_trans _ _ _ h1 h2

theorem issueLE_total (a b : Nat × Record) : issueLE a b || issueLE b a :=
  keyLE_total _ _

theorem rank_issues_perm (issues : List Record) : (rank_issues issues).Perm issues.enum :=
  List.mergeSort_perm _ _

theorem rank_issues_sorted (issues : List Record) :
    (rank_issues issues).Pairwise (fun a b => issueLE a b) :=
  List.sorted_mergeSort issueLE_trans issueLE_total _

theorem rank_issues_length (issues : List Record) :
    (rank_issues issues).length = issues.length := by
  rw [rank_issues, List.length_mergeSort, List.enum_length]

theorem pySliceTo_sublist {α : Type} (xs : List α) (stop : Int) :
    (pySliceTo xs stop).Sublist xs := by
  rw [pySliceTo]
  split <;> exact List.take_sublist _ _

theorem pySliceTo_length_nonneg {α : Type} (xs : List α) (stop : Int) (h : 0 ≤ stop) :
    (pySliceTo xs stop).length = min stop.toNat xs.length := by
  rw [pySliceTo, if_neg (by omega), List.length_take]

/-- Unfolding of select_top_issues on a mapping. -/
theorem select_top_issues_map_eq (kvs : List (String × Yaml)) (limit : Int) :
    select_top_issues (Yaml.map kvs) limit =
      match lookupY "issues" kvs with
      | none => RunResult.fatal "Input YAML must contain a top-level 'issues' sequence"
      | some (Yaml.list items) =>
        match items.mapM decodeIssue with
        | some records => RunResult.written (Yaml.map [("issues",
            Yaml.list ((selectIssues records limit).map Yaml.map))])
        | none => RunResult.unmodelled
      | some _ => RunResult.fatal "'issues' must be a list" := rfl

/-- Unfolding of main_run on an argument vector of three entries. -/
theorem main_run_eq (prog src tgt : String) (fs : String → Option Yaml) :
    main_run [prog, src, tgt] fs =
      match fs src with
      | none => MainResult.notFound src
      | some data =>
        match select_top_issues data 10 with
        | RunResult.fatal msg => MainResult.fatal msg
        | RunResult.written doc => MainResult.success tgt doc
        | RunResult.unmodelled => MainResult.unmodelled := rfl

/-! Claim theorems. -/

/-- C1: for every input document whose issues value is a list of records and
every limit at least 0, the run writes a document whose issues sequence has
length min(limit, number of input records); in particular a limit of 0
yields an empty result, not an error. -/
theorem C1_output_length (kvs : List (String × Yaml)) (items : List Yaml)
    (records : List Record) (limit : Int)
    (hk : lookupY "issues" kvs = some (Yaml.list items))
    (hdec : items.mapM decodeIssue = some records)
    (hlim : 0 ≤ limit) :
    select_top_issues (Yaml.map kvs) limit
      = RunResult.written (Yaml.map [("issues",
          Yaml.list ((selectIssues records limit).map Yaml.map))])
    ∧ (selectIssues records limit).length = min limit.toNat records.length := by
  constructor
  · rw [select_top_issues_map_eq, hk]
    show (match items.mapM decodeIssue with
      | some records => RunResult.written (Yaml.map [("issues",
          Yaml.list ((selectIssues records limit).map Yaml.map))])
      | none => RunResult.unmodelled) = _
    rw [hdec]
  · rw [selectIssues, pySliceTo_length_nonneg _ _ hlim, List.length_map,
      rank_issues_length]

/-- Witness for C1 at a concrete two-record document with limit 0. -/
theorem C1_witness :
    lookupY "issues" [("issues", Yaml.list [Yaml.map [("id", Yaml.int 1)],
        Yaml.map [("id", Yaml.int 2), ("priority", Yaml.str "P1")]])]
      = some (Yaml.list [Yaml.map [("id", Yaml.int 1)],
        Yaml.map [("id", Yaml.int 2), ("priority", Yaml.str "P1")]])
    ∧ ([Yaml.map [("id", Yaml.int 1)],
        Yaml.map [("id", Yaml.int 2), ("priority", Yaml.str "P1")]].mapM decodeIssue
      = some [[("id", Yaml.int 1)], [("id", Yaml.int 2), ("priority", Yaml.str "P1")]])
    ∧ (0 : Int) ≤ 0
    ∧ (select_top_issues (Yaml.map [("issues", Yaml.list [Yaml.map [("id", Yaml.int 1)],
          Yaml.map [("id", Yaml.int 2), ("priority", Yaml.str "P1")]])]) 0
        = RunResult.written (Yaml.map [("issues",
            Yaml.list ((selectIssues [[("id", Yaml.int 1)],
              [("id", Yaml.int 2), ("priority", Yaml.str "P1")]] 0).map Yaml.map))])
      ∧ (selectIssues [[("id", Yaml.int 1)],
          [("id", Yaml.int 2), ("priority", Yaml.str "P1")]] 0).length
        = min (0 : Int).toNat 2) :=
  ⟨rfl, rfl, le_refl 0,
    C1_output_length _ _ _ 0 rfl rfl (le_refl 0)⟩

/-- C4: a parsed input that is not a mapping, or lacks the issues key, or
whose issues value is not a sequence, makes the operation fail fatally: a
SystemExit is raised before anything is written, and the command-line run
exits non-zero with no output document produced. -/
theorem C4_shape_errors (data : Yaml) (limit : Int)
    (h : (∀ kvs, data ≠ Yaml.map kvs)
       ∨ (∃ kvs, data = Yaml.map kvs ∧ lookupY "issues" kvs = none)
       ∨ (∃ kvs v, data = Yaml.map kvs ∧ lookupY "issues" kvs = some v
            ∧ ∀ xs, v ≠ Yaml.list xs)) :
    (∃ msg, select_top_issues data limit = RunResult.fatal msg)
    ∧ (∀ prog src tgt fs, fs src = some data →
        (∃ msg, main_run [prog, src, tgt] fs = MainResult.fatal msg)
        ∧ exitCode (main_run [prog, src, tgt] fs) = 1) := by
  have key : ∀ lim : Int, ∃ msg, select_top_issues data lim = RunResult.fatal msg := by
    intro lim
    rcases h with hnm | ⟨kvs, rfl, hmiss⟩ | ⟨kvs, v, rfl, hv, hnl⟩
    · cases data with
      | map kvs => exact absurd rfl (hnm kvs)
      | null => exact ⟨_, rfl⟩
      | bool b => exact ⟨_, rfl⟩
      | int n => exact ⟨_, rfl⟩
      | str s => exact ⟨_, rfl⟩
      | list xs => exact ⟨_, rfl⟩
    · refine ⟨"Input YAML must contain a top-level 'issues' sequence", ?_⟩
      rw [select_top_issues_map_eq, hmiss]
    · refine ⟨"'issues' must be a list", ?_⟩
      rw [select_top_issues_map_eq, hv]
      cases v with
      | list xs => exact absurd rfl (hnl xs)
      | null => rfl
      | bool b => rfl
      | int n => rfl
      | str s => rfl
      | map m => rfl
  refine ⟨key limit, ?_⟩
  intro prog src tgt fs hfs
  obtain ⟨msg, hm⟩ := key 10
  have hrun : main_run [prog, src, tgt] fs = MainResult.fatal msg := by
    rw [main_run_eq, hfs]
    show (match select_top_issues data 10 with
      | RunResult.fatal msg => MainResult.fatal msg
      | RunResult.written doc => MainResult.success tgt doc
      | RunResult.unmodelled => MainResult.unmodelled) = _
    rw [hm]
  exact ⟨⟨msg, hrun⟩, by rw [hrun]; rfl⟩

/-- Witness for C4 at the empty mapping, the scenario of the spec. -/
theorem C4_witness :
    ((∀ kvs, Yaml.map ([] : List (String × Yaml)) ≠ Yaml.map kvs)
       ∨ (∃ kvs, Yaml.map ([] : List (String × Yaml)) = Yaml.map kvs
            ∧ lookupY "issues" kvs = none)
       ∨ (∃ kvs v, Yaml.map ([] : List (String × Yaml)) = Yaml.map kvs
            ∧ lookupY "issues" kvs = some v ∧ ∀ xs, v ≠ Yaml.list xs))
    ∧ ((∃ msg, select_top_issues (Yaml.map []) 10 = RunResult.fatal msg)
      ∧ (∀ prog src tgt fs, fs src = some (Yaml.map []) →
          (∃ msg, main_run [prog, src, tgt] fs = MainResult.fatal msg)
          ∧ exitCode (main_run [prog, src, tgt] fs) = 1)) :=
  ⟨Or.inr (Or.inl ⟨[], rfl, rfl⟩),
    C4_shape_errors (Yaml.map []) 10 (Or.inr (Or.inl ⟨[], rfl, rfl⟩))⟩

/-- Indices in the ranked list are pairwise distinct: the ranked list is a
permutation of the enumeration, whose indices are the range. -/
theorem rank_issues_index_nodup (issues : List Record) :
    (rank_issues issues).Pairwise (fun a b => a.1 ≠ b.1) := by
  have hperm : ((rank_issues issues).map Prod.fst).Perm (issues.enum.map Prod.fst) :=
    (rank_issues_perm issues).map _
  rw [List.enum_map_fst] at hperm
  have hnd : ((rank_issues issues).map Prod.fst).Nodup :=
    hperm.symm.nodup (List.nodup_range _)
  exact List.pairwise_map.mp hnd

/-- From the tuple order with all three normalised attributes equal and
distinct indices, the original indices are strictly increasing. -/
theorem issueLE_stable_lt (a b : Nat × Record)
    (h1 : issueLE a b = true) (h2 : a.1 ≠ b.1)
    (hp : normalise_priority a.2 = normalise_priority b.2)
    (hi : normalise_impact a.2 = normalise_impact b.2)
    (he : normalise_estimate a.2 = normalise_estimate b.2) :
    a.1 < b.1 := by
  have hps : priority_score a.2 = priority_score b.2 := by
    unfold priority_score
    rw [hp]
  have his : impact_score a.2 = impact_score b.2 := by
    unfold impact_score
    rw [hi]
  have hes : estimate_score a.2 = estimate_score b.2 := by
    unfold estimate_score
    rw [he]
  simp only [issueLE, keyLE, sort_key, Bool.or_eq_true, Bool.and_eq_true,
    decide_eq_true_eq] at h1
  omega

/-- C2: the ranker sorts by the ascending tuple key (-priority_score,
-impact_score, estimate_score, original_index): the ranked list is pairwise
ordered by the tuple order, it is a permutation of the enumerated input, and
two records whose normalised priority, impact and estimate all agree keep
their original relative input order. -/
theorem C2_sort_order (records : List Record)
    (hok : ∀ r ∈ records, labelsOK r = true) :
    (rank_issues records).Pairwise (fun a b => issueLE a b = true)
    ∧ (rank_issues records).Perm records.enum
    ∧ (rank_issues records).Pairwise (fun a b =>
        normalise_priority a.2 = normalise_priority b.2 →
        normalise_impact a.2 = normalise_impact b.2 →
        normalise_estimate a.2 = normalise_estimate b.2 → a.1 < b.1) := by
  refine ⟨rank_issues_sorted records, rank_issues_perm records, ?_⟩
  have hs := rank_issues_sorted records
  have hnd := rank_issues_index_nodup records
  exact List.Pairwise.imp₂
    (fun a b h1 h2 hp hi he => issueLE_stable_lt a b h1 h2 hp hi he) hs hnd

/-- Witness for C2 at a concrete two-record list. -/
theorem C2_witness :
    (∀ r ∈ [[("priority", Yaml.str "P1")], ([] : Record)], labelsOK r = true)
    ∧ ((rank_issues [[("priority", Yaml.str "P1")], ([] : Record)]).Pairwise
          (fun a b => issueLE a b = true)
      ∧ (rank_issues [[("priority", Yaml.str "P1")], ([] : Record)]).Perm
          ([[("priority", Yaml.str "P1")], ([] : Record)]).enum
      ∧ (rank_issues [[("priority", Yaml.str "P1")], ([] : Record)]).Pairwise
          (fun a b =>
            normalise_priority a.2 = normalise_priority b.2 →
            normalise_impact a.2 = normalise_impact b.2 →
            normalise_estimate a.2 = normalise_estimate b.2 → a.1 < b.1)) :=
  ⟨by decide, C2_sort_order _ (by decide)⟩

/-- The tuple order forgets its index component into the three score
comparisons. -/
theorem issueLE_scores (a b : Nat × Record) (h : issueLE a b = true) :
    priority_score b.2 ≤ priority_score a.2
    ∧ (priority_score a.2 = priority_score b.2 → impact_score b.2 ≤ impact_score a.2)
    ∧ (priority_score a.2 = priority_score b.2 → impact_score a.2 = impact_score b.2 →
        estimate_score a.2 ≤ estimate_score b.2) := by
  simp only [issueLE, keyLE, sort_key, Bool.or_eq_true, Bool.and_eq_true,
    decide_eq_true_eq] at h
  omega

/-- The truncated output is pairwise ordered by the three scores. -/
theorem selectIssues_pairwise_scores (records : List Record) (limit : Int) :
    (selectIssues records limit).Pairwise (fun a b =>
      priority_score b ≤ priority_score a
      ∧ (priority_score a = priority_score b → impact_score b ≤ impact_score a)
      ∧ (priority_score a = priority_score b → impact_score a = impact_score b →
          estimate_score a ≤ estimate_score b)) := by
  have hs := rank_issues_sorted records
  have h2 : ((rank_issues records).map Prod.snd).Pairwise (fun a b =>
      priority_score b ≤ priority_score a
      ∧ (priority_score a = priority_score b → impact_score b ≤ impact_score a)
      ∧ (priority_score a = priority_score b → impact_score a = impact_score b →
          estimate_score a ≤ estimate_score b)) :=
    List.pairwise_map.mpr (hs.imp (fun h => issueLE_scores _ _ h))
  exact h2.sublist (pySliceTo_sublist _ _)

/-- C5: scanning the returned order left to right, the priority score never
increases; within equal priority scores the impact score never increases;
and within equal priority and impact scores the estimate score never
decreases. -/
theorem C5_monotone (records : List Record) (limit : Int)
    (hok : ∀ r ∈ records, labelsOK r = true) :
    (selectIssues records limit).Pairwise (fun a b =>
      priority_score b ≤ priority_score a
      ∧ (priority_score a = priority_score b → impact_score b ≤ impact_score a)
      ∧ (priority_score a = priority_score b → impact_score a = impact_score b →
          estimate_score a ≤ estimate_score b)) :=
  selectIssues_pairwise_scores records limit

/-- Witness for C5 at a concrete three-record list, limit 2. -/
theorem C5_witness :
    (∀ r ∈ [[("priority", Yaml.str "P3")],
            [("priority", Yaml.str "P1")],
            [("priority", Yaml.str "P1"), ("impact", Yaml.str "HIGH")]], labelsOK r = true)
    ∧ (selectIssues [[("priority", Yaml.str "P3")],
            [("priority", Yaml.str "P1")],
            [("priority", Yaml.str "P1"), ("impact", Yaml.str "HIGH")]] 2).Pairwise
        (fun a b =>
          priority_score b ≤ priority_score a
          ∧ (priority_score a = priority_score b → impact_score b ≤ impact_score a)
          ∧ (priority_score a = priority_score b → impact_score a = impact_score b →
              estimate_score a ≤ estimate_score b)) :=
  ⟨by decide, C5_monotone _ 2 (by decide)⟩

/-- C7: every record that reaches the output is one of the input records,
unchanged, with all its fields verbatim: the output is a sub-permutation of
the input and each output entry is a member of the input. -/
theorem C7_passthrough (records : List Record) (limit : Int)
    (hok : ∀ r ∈ records, labelsOK r = true) :
    (selectIssues records limit).Subperm records
    ∧ ∀ r ∈ selectIssues records limit, r ∈ records := by
  have hperm : ((rank_issues records).map Prod.snd).Perm records := by
    have h := (rank_issues_perm records).map Prod.snd
    rwa [List.enum_map_snd] at h
  have hsub : (selectIssues records limit).Subperm records :=
    ((pySliceTo_sublist _ _).subperm).trans hperm.subperm
  exact ⟨hsub, fun r hr => hsub.subset hr⟩

/-- Witness for C7 at a concrete two-record list, limit 1. -/
theorem C7_witness :
    (∀ r ∈ [[("id", Yaml.int 1)], [("id", Yaml.int 2), ("priority", Yaml.str "P1")]],
        labelsOK r = true)
    ∧ ((selectIssues [[("id", Yaml.int 1)],
          [("id", Yaml.int 2), ("priority", Yaml.str "P1")]] 1).Subperm
        [[("id", Yaml.int 1)], [("id", Yaml.int 2), ("priority", Yaml.str "P1")]]
      ∧ ∀ r ∈ selectIssues [[("id", Yaml.int 1)],
          [("id", Yaml.int 2), ("priority", Yaml.str "P1")]] 1,
          r ∈ [[("id", Yaml.int 1)], [("id", Yaml.int 2), ("priority", Yaml.str "P1")]]) :=
  ⟨by decide, C7_passthrough _ 1 (by decide)⟩

/-- A list that is already pairwise ordered by the three scores is, once
enumerated, pairwise ordered by the tuple order: its index components are
strictly increasing and break every remaining tie. -/
theorem enum_pairwise_issueLE (l : List Record)
    (hpw : l.Pairwise (fun a b =>
      priority_score b ≤ priority_score a
      ∧ (priority_score a = priority_score b → impact_score b ≤ impact_score a)
      ∧ (priority_score a = priority_score b → impact_score a = impact_score b →
          estimate_score a ≤ estimate_score b))) :
    l.enum.Pairwise (fun a b => issueLE a b = true) := by
  have hidx : l.enum.Pairwise (fun a b => a.1 < b.1) := by
    have h := List.pairwise_lt_range l.length
    rw [← List.enum_map_fst l] at h
    exact List.pairwise_map.mp h
  have hsnd : l.enum.Pairwise (fun a b =>
      priority_score b.2 ≤ priority_score a.2
      ∧ (priority_score a.2 = priority_score b.2 → impact_score b.2 ≤ impact_score a.2)
      ∧ (priority_score a.2 = priority_score b.2 → impact_score a.2 = impact_score b.2 →
          estimate_score a.2 ≤ estimate_score b.2)) := by
    have h : (l.enum.map Prod.snd).Pairwise (fun a b =>
        priority_score b ≤ priority_score a
        ∧ (priority_score a = priority_score b → impact_score b ≤ impact_score a)
        ∧ (priority_score a = priority_score b → impact_score a = impact_score b →
            estimate_score a ≤ estimate_score b)) := by
      rw [List.enum_map_snd]
      exact hpw
    exact List.pairwise_map.mp h
  refine List.Pairwise.imp₂ ?_ hidx hsnd
  intro a b hab hsc
  obtain ⟨h1, h2, h3⟩ := hsc
  simp only [issueLE, keyLE, sort_key, Bool.or_eq_true, Bool.and_eq_true,
    decide_eq_true_eq]
  omega

/-- C6: ranking an already-ranked-and-truncated list again with the same
limit returns it unchanged. -/
theorem C6_idempotent (records : List Record) (limit : Int)
    (hok : ∀ r ∈ records, labelsOK r = true) (hlim : 0 ≤ limit) :
    selectIssues (selectIssues records limit) limit = selectIssues records limit := by
  have hpw := selectIssues_pairwise_scores records limit
  have hr : rank_issues (selectIssues records limit) = (selectIssues records limit).enum :=
    List.mergeSort_of_sorted (enum_pairwise_issueLE _ hpw)
  have hlen : (selectIssues records limit).length ≤ limit.toNat := by
    rw [selectIssues, pySliceTo_length_nonneg _ _ hlim]
    omega
  rw [selectIssues, hr, List.enum_map_snd, pySliceTo, if_neg (by omega),
    List.take_of_length_le hlen]

/-- Witness for C6 at a concrete three-record list, limit 2. -/
theorem C6_witness :
    (∀ r ∈ [[("priority", Yaml.str "P3")],
            [("priority", Yaml.str "P1")],
            [("priority", Yaml.str "P1"), ("impact", Yaml.str "HIGH")]], labelsOK r = true)
    ∧ (0 : Int) ≤ 2
    ∧ selectIssues (selectIssues [[("priority", Yaml.str "P3")],
            [("priority", Yaml.str "P1")],
            [("priority", Yaml.str "P1"), ("impact", Yaml.str "HIGH")]] 2) 2
      = selectIssues [[("priority", Yaml.str "P3")],
            [("priority", Yaml.str "P1")],
            [("priority", Yaml.str "P1"), ("impact", Yaml.str "HIGH")]] 2 :=
  ⟨by decide, by decide, C6_idempotent _ 2 (by decide) (by decide)⟩

/-- Ranking an empty record list yields the empty list. -/
theorem selectIssues_nil (limit : Int) : selectIssues [] limit = [] := by
  rw [selectIssues, rank_issues]
  simp only [List.enum_nil, List.mergeSort_nil, List.map_nil, pySliceTo, List.take_nil]
  split <;> rfl

/-- Running the tool on a document with an empty issues sequence writes the
empty output document. -/
theorem select_top_issues_empty (limit : Int) :
    select_top_issues (Yaml.map [("issues", Yaml.list [])]) limit
      = RunResult.written (Yaml.map [("issues", Yaml.list [])]) := by
  rw [select_top_issues_map_eq]
  show RunResult.written (Yaml.map [("issues",
    Yaml.list ((selectIssues [] limit).map Yaml.map))]) = _
  rw [selectIssues_nil]
  rfl

/-- C8 counterexample: the command-line surface does not accept a limit
argument. Invoking with an input path, an output path and a limit (four
argv entries in total) is rejected with a usage error and exit code 1, on a
filesystem where every path holds a well-formed document, so the claim that
the invocation surface accepts an optional limit parameter is false. -/
theorem C8_counterexample :
    main_run ["tools/select_top10.py", "backlog/issues.yaml", "backlog/top10.yaml", "5"]
        (fun _ => some (Yaml.map [("issues", Yaml.list [])]))
      = MainResult.usageError
    ∧ exitCode (main_run ["tools/select_top10.py", "backlog/issues.yaml", "backlog/top10.yaml", "5"]
        (fun _ => some (Yaml.map [("issues", Yaml.list [])]))) = 1
    ∧ main_run ["tools/select_top10.py", "backlog/issues.yaml", "backlog/top10.yaml"]
        (fun _ => some (Yaml.map [("issues", Yaml.list [])]))
      = MainResult.success "backlog/top10.yaml" (Yaml.map [("issues", Yaml.list [])]) := by
  refine ⟨rfl, rfl, ?_⟩
  rw [main_run_eq]
  show (match select_top_issues (Yaml.map [("issues", Yaml.list [])]) 10 with
    | RunResult.fatal msg => MainResult.fatal msg
    | RunResult.written doc => MainResult.success "backlog/top10.yaml" doc
    | RunResult.unmodelled => MainResult.unmodelled) = _
  rw [select_top_issues_empty]

/-- C8 amended: the command takes exactly an input path and an output path;
the limit is not settable from the command line and the function default 10
is always used. Any other argument count is a usage error with exit 1;
success writes the output document and reports the written path with exit
0; a missing input path is a fatal error with a diagnostic and exit 1. -/
theorem C8_cli (argv : List String) (fs : String → Option Yaml) :
    (argv.length ≠ 3 →
      main_run argv fs = MainResult.usageError ∧ exitCode (main_run argv fs) = 1)
    ∧ (∀ prog src tgt, argv = [prog, src, tgt] → fs src = none →
        main_run argv fs = MainResult.notFound src ∧ exitCode (main_run argv fs) = 1)
    ∧ (∀ prog src tgt data doc, argv = [prog, src, tgt] → fs src = some data →
        select_top_issues data 10 = RunResult.written doc →
        main_run argv fs = MainResult.success tgt doc ∧ exitCode (main_run argv fs) = 0) := by
  refine ⟨?_, ?_, ?_⟩
  · intro h
    have hm : main_run argv fs = MainResult.usageError := by
      unfold main_run
      rw [if_pos h]
    exact ⟨hm, by rw [hm]; rfl⟩
  · rintro prog src tgt rfl hfs
    have hm : main_run [prog, src, tgt] fs = MainResult.notFound src := by
      rw [main_run_eq, hfs]
    exact ⟨hm, by rw [hm]; rfl⟩
  · rintro prog src tgt data doc rfl hfs hsel
    have hm : main_run [prog, src, tgt] fs = MainResult.success tgt doc := by
      rw [main_run_eq, hfs]
      show (match select_top_issues data 10 with
        | RunResult.fatal msg => MainResult.fatal msg
        | RunResult.written doc => MainResult.success tgt doc
        | RunResult.unmodelled => MainResult.unmodelled) = _
      rw [hsel]
    exact ⟨hm, by rw [hm]; rfl⟩

/-- Witness for the amended C8: a concrete missing input path gives the
diagnostic outcome with exit 1, and a concrete valid run succeeds with exit
0. -/
theorem C8_witness :
    (main_run ["tools/select_top10.py", "missing.yaml", "out.yaml"] (fun _ => none)
        = MainResult.notFound "missing.yaml"
      ∧ exitCode (main_run ["tools/select_top10.py", "missing.yaml", "out.yaml"]
          (fun _ => none)) = 1)
    ∧ (main_run ["tools/select_top10.py", "in.yaml", "out.yaml"]
          (fun _ => some (Yaml.map [("issues", Yaml.list [])]))
        = MainResult.success "out.yaml" (Yaml.map [("issues", Yaml.list [])])
      ∧ exitCode (main_run ["tools/select_top10.py", "in.yaml", "out.yaml"]
          (fun _ => some (Yaml.map [("issues", Yaml.list [])]))) = 0) :=
  ⟨(C8_cli ["tools/select_top10.py", "missing.yaml", "out.yaml"] (fun _ => none)).2.1
      "tools/select_top10.py" "missing.yaml" "out.yaml" rfl rfl,
    (C8_cli ["tools/select_top10.py", "in.yaml", "out.yaml"]
        (fun _ => some (Yaml.map [("issues", Yaml.list [])]))).2.2
      "tools/select_top10.py" "in.yaml" "out.yaml" (Yaml.map [("issues", Yaml.list [])])
      (Yaml.map [("issues", Yaml.list [])]) rfl rfl (select_top_issues_empty 10)⟩

/-- C9: for a negative limit -k with 0 < k < n, the core does not reject
and does not return an empty result: it returns the first n - k entries of
the fully sorted sequence, following Python slice semantics. -/
theorem C9_negative_limit (records : List Record) (k : Nat)
    (hok : ∀ r ∈ records, labelsOK r = true)
    (hk0 : 0 < k) (hkn : k < records.length) :
    selectIssues records (-(k : Int))
      = ((rank_issues records).map Prod.snd).take (records.length - k)
    ∧ (selectIssues records (-(k : Int))).length = records.length - k
    ∧ selectIssues records (-(k : Int)) ≠ [] := by
  have hlen : ((rank_issues records).map Prod.snd).length = records.length := by
    rw [List.length_map, rank_issues_length]
  have h1 : selectIssues records (-(k : Int))
      = ((rank_issues records).map Prod.snd).take (records.length - k) := by
    rw [selectIssues, pySliceTo, if_pos (by omega)]
    congr 1
    rw [hlen]
    omega
  refine ⟨h1, ?_, ?_⟩
  · rw [h1, List.length_take, hlen]
    omega
  · rw [h1]
    intro hcon
    have hlc := congrArg List.length hcon
    rw [List.length_take, hlen, List.length_nil] at hlc
    omega

/-- Witness for C9 at a concrete three-record list with limit -1. -/
theorem C9_witness :
    (∀ r ∈ [[("priority", Yaml.str "P3")],
            [("priority", Yaml.str "P1")],
            [("estimate", Yaml.str "XS")]], labelsOK r = true)
    ∧ 0 < 1 ∧ 1 < 3
    ∧ (selectIssues [[("priority", Yaml.str "P3")],
            [("priority", Yaml.str "P1")],
            [("estimate", Yaml.str "XS")]] (-(1 : Int))).length = 3 - 1
    ∧ selectIssues [[("priority", Yaml.str "P3")],
            [("priority", Yaml.str "P1")],
            [("estimate", Yaml.str "XS")]] (-(1 : Int)) ≠ [] := by
  have h := C9_negative_limit [[("priority", Yaml.str "P3")],
            [("priority", Yaml.str "P1")],
            [("estimate", Yaml.str "XS")]] 1 (by decide) (by decide) (by decide)
  exact ⟨by decide, by decide, by decide, h.2.1, h.2.2⟩

/-- Hit test of a single label, the body of the scanning loop. -/
def labelHit (marker : String) : Yaml → Option String
  | Yaml.str s =>
    if pyStartsWith (pyLower s) marker then some (pyUpper (afterColon s)) else none
  | _ => none

/-- A scan over labels none of which hits returns nothing. -/
theorem scanLabels_eq_none (marker : String) (ls : List Yaml)
    (h : ∀ y ∈ ls, labelHit marker y = none) : scanLabels marker ls = none := by
  induction ls with
  | nil => rfl
  | cons y rest ih =>
    have hrest : scanLabels marker rest = none :=
      ih (fun z hz => h z (List.mem_cons_of_mem _ hz))
    have hy := h y (List.mem_cons_self _ _)
    cases y with
    | str s =>
      simp only [labelHit] at hy
      by_cases hc : pyStartsWith (pyLower s) marker = true
      · simp [hc] at hy
      · simp only [scanLabels]
        rw [if_neg hc]
        exact hrest
    | null => simpa only [scanLabels] using hrest
    | bool b => simpa only [scanLabels] using hrest
    | int n => simpa only [scanLabels] using hrest
    | list xs => simpa only [scanLabels] using hrest
    | map m => simpa only [scanLabels] using hrest

/-- The first string label whose lower-cased form starts with the marker
wins: everything before it misses, everything after it is ignored. -/
theorem scanLabels_first_hit (marker : String) (ls1 : List Yaml) (s : String)
    (ls2 : List Yaml)
    (h1 : ∀ y ∈ ls1, labelHit marker y = none)
    (hs : pyStartsWith (pyLower s) marker = true) :
    scanLabels marker (ls1 ++ Yaml.str s :: ls2) = some (pyUpper (afterColon s)) := by
  induction ls1 with
  | nil =>
    simp only [List.nil_append, scanLabels]
    rw [if_pos hs]
  | cons y rest ih =>
    have htail := ih (fun z hz => h1 z (List.mem_cons_of_mem _ hz))
    have hy := h1 y (List.mem_cons_self _ _)
    cases y with
    | str t =>
      simp only [labelHit] at hy
      by_cases hc : pyStartsWith (pyLower t) marker = true
      · simp [hc] at hy
      · simp only [List.cons_append, scanLabels]
        rw [if_neg hc]
        exact htail
    | null => simpa only [List.cons_append, scanLabels] using htail
    | bool b => simpa only [List.cons_append, scanLabels] using htail
    | int n => simpa only [List.cons_append, scanLabels] using htail
    | list xs => simpa only [List.cons_append, scanLabels] using htail
    | map m => simpa only [List.cons_append, scanLabels] using htail

/-- When the direct priority field is not a string, the normaliser falls
through to the label scan. -/
theorem normalise_priority_no_field (r : Record)
    (h : ∀ p, lookupY "priority" r ≠ some (Yaml.str p)) :
    normalise_priority r = match scanLabels "priority:" (getLabels r) with
      | some v => v
      | none => DEFAULT_PRIORITY := by
  unfold normalise_priority
  cases hl : lookupY "priority" r with
  | none => rfl
  | some v =>
    cases v with
    | str p => exact absurd hl (h p)
    | null => rfl
    | bool b => rfl
    | int n => rfl
    | list xs => rfl
    | map m => rfl

/-- When the direct impact field is not a string, the normaliser falls
through to the label scan. -/
theorem normalise_impact_no_field (r : Record)
    (h : ∀ s, lookupY "impact" r ≠ some (Yaml.str s)) :
    normalise_impact r = match scanLabels "impact:" (getLabels r) with
      | some v => v
      | none => pyUpper DEFAULT_IMPACT := by
  unfold normalise_impact
  cases hl : lookupY "impact" r with
  | none => rfl
  | some v =>
    cases v with
    | str p => exact absurd hl (h p)
    | null => rfl
    | bool b => rfl
    | int n => rfl
    | list xs => rfl
    | map m => rfl

/-- A score lookup on a table containing no binding for the key returns the
default. -/
theorem scoreGet_of_not_mem (d : List (String × Int)) (k : String) (dflt : Int)
    (h : ∀ kv ∈ d, kv.1 ≠ k) : scoreGet d k dflt = dflt := by
  induction d with
  | nil => rfl
  | cons kv rest ih =>
    simp only [scoreGet]
    rw [if_neg (h kv (List.mem_cons_self _ _))]
    exact ih (fun z hz => h z (List.mem_cons_of_mem _ hz))

/-- C3: per-record normalisation precedence. A direct string field is
upper-cased and used even outside the known enumeration, and unknown
normalised values score as the defaults (priority 1, impact 1, estimate 3);
otherwise, for priority and impact only, the labels are scanned in order
and the first string whose lower-cased form starts with the marker supplies
the upper-cased text after its first colon; otherwise the defaults P3 / LOW
/ M apply; estimate has no label-derived fallback. -/
theorem C3_normalisation (r : Record) (hok : labelsOK r = true) :
    (∀ p, lookupY "priority" r = some (Yaml.str p) → normalise_priority r = pyUpper p)
    ∧ (∀ s, lookupY "impact" r = some (Yaml.str s) → normalise_impact r = pyUpper s)
    ∧ (∀ s, lookupY "estimate" r = some (Yaml.str s) → normalise_estimate r = pyUpper s)
    ∧ (normalise_priority r ∉ ["P1", "P2", "P3"] → priority_score r = 1)
    ∧ (normalise_impact r ∉ ["HIGH", "MEDIUM", "LOW"] → impact_score r = 1)
    ∧ (normalise_estimate r ∉ ["XS", "S", "M", "L", "XL"] → estimate_score r = 3)
    ∧ ((∀ p, lookupY "priority" r ≠ some (Yaml.str p)) →
        ∀ ls1 s ls2, getLabels r = ls1 ++ Yaml.str s :: ls2 →
          (∀ y ∈ ls1, labelHit "priority:" y = none) →
          pyStartsWith (pyLower s) "priority:" = true →
          normalise_priority r = pyUpper (afterColon s))
    ∧ ((∀ p, lookupY "priority" r ≠ some (Yaml.str p)) →
        (∀ y ∈ getLabels r, labelHit "priority:" y = none) →
        normalise_priority r = "P3")
    ∧ ((∀ s, lookupY "impact" r ≠ some (Yaml.str s)) →
        ∀ ls1 s ls2, getLabels r = ls1 ++ Yaml.str s :: ls2 →
          (∀ y ∈ ls1, labelHit "impact:" y = none) →
          pyStartsWith (pyLower s) "impact:" = true →
          normalise_impact r = pyUpper (afterColon s))
    ∧ ((∀ s, lookupY "impact" r ≠ some (Yaml.str s)) →
        (∀ y ∈ getLabels r, labelHit "impact:" y = none) →
        normalise_impact r = "LOW")
    ∧ ((∀ e, lookupY "estimate" r ≠ some (Yaml.str e)) → normalise_estimate r = "M") := by
  refine ⟨?_, ?_, ?_, ?_, ?_, ?_, ?_, ?_, ?_, ?_, ?_⟩
  · intro p hp
    unfold normalise_priority
    rw [hp]
  · intro s hs
    unfold normalise_impact
    rw [hs]
  · intro s hs
    unfold normalise_estimate
    rw [hs]
  · intro hmem
    unfold priority_score
    rw [scoreGet_of_not_mem]
    · rfl
    · intro kv hkv he
      apply hmem
      rw [← he]
      simp only [PRIORITY_ORDER, List.mem_cons, List.not_mem_nil, or_false] at hkv
      rcases hkv with rfl | rfl | rfl <;> simp
  · intro hmem
    unfold impact_score
    rw [scoreGet_of_not_mem]
    · rfl
    · intro kv hkv he
      apply hmem
      rw [← he]
      simp only [IMPACT_ORDER, List.mem_cons, List.not_mem_nil, or_false] at hkv
      rcases hkv with rfl | rfl | rfl <;> simp
  · intro hmem
    unfold estimate_score
    rw [scoreGet_of_not_mem]
    · rfl
    · intro kv hkv he
      apply hmem
      rw [← he]
      simp only [ESTIMATE_ORDER, List.mem_cons, List.not_mem_nil, or_false] at hkv
      rcases hkv with rfl | rfl | rfl | rfl | rfl <;> simp
  · intro hfield ls1 s ls2 hgl hmiss hpre
    rw [normalise_priority_no_field r hfield, hgl,
      scanLabels_first_hit "priority:" ls1 s ls2 hmiss hpre]
  · intro hfield hnone
    rw [normalise_priority_no_field r hfield, scanLabels_eq_none _ _ hnone]
    rfl
  · intro hfield ls1 s ls2 hgl hmiss hpre
    rw [normalise_impact_no_field r hfield, hgl,
      scanLabels_first_hit "impact:" ls1 s ls2 hmiss hpre]
  · intro hfield hnone
    rw [normalise_impact_no_field r hfield, scanLabels_eq_none _ _ hnone]
    rfl
  · intro hfield
    unfold normalise_estimate
    cases hl : lookupY "estimate" r with
    | none => rfl
    | some v =>
      cases v with
      | str e => exact absurd hl (hfield e)
      | null => rfl
      | bool b => rfl
      | int n => rfl
      | list xs => rfl
      | map m => rfl

/-- Witness for C3 at a concrete record carrying a priority label behind a
non-string label, a null estimate field and an estimate label that must be
ignored. -/
theorem C3_witness :
    labelsOK [("labels", Yaml.list [Yaml.int 1, Yaml.str "priority:p2",
        Yaml.str "estimate:XL"]), ("estimate", Yaml.null)] = true
    ∧ normalise_priority [("labels", Yaml.list [Yaml.int 1, Yaml.str "priority:p2",
        Yaml.str "estimate:XL"]), ("estimate", Yaml.null)]
      = pyUpper (afterColon "priority:p2")
    ∧ normalise_estimate [("labels", Yaml.list [Yaml.int 1, Yaml.str "priority:p2",
        Yaml.str "estimate:XL"]), ("estimate", Yaml.null)] = "M" := by
  have h := C3_normalisation [("labels", Yaml.list [Yaml.int 1, Yaml.str "priority:p2",
      Yaml.str "estimate:XL"]), ("estimate", Yaml.null)] rfl
  refine ⟨rfl, ?_, ?_⟩
  · refine h.2.2.2.2.2.2.1 ?_ [Yaml.int 1] "priority:p2" [Yaml.str "estimate:XL"] rfl ?_ rfl
    · intro p hp
      exact Option.noConfusion hp
    · intro y hy
      rw [List.mem_singleton] at hy
      subst hy
      rfl
  · refine h.2.2.2.2.2.2.2.2.2.2 ?_
    intro e he
    exact Yaml.noConfusion (Option.some.inj he)

/-- C10: a labels field that is null is treated as an empty label list, the
label scan skips non-string entries, neither causes an error, and the first
string label with the matching marker still wins. -/
theorem C10_labels (r : Record) (hnull : lookupY "labels" r = some Yaml.null) :
    getLabels r = []
    ∧ (lookupY "priority" r = none → normalise_priority r = "P3")
    ∧ (∀ marker (y : Yaml) (ls : List Yaml), (∀ s, y ≠ Yaml.str s) →
        scanLabels marker (y :: ls) = scanLabels marker ls)
    ∧ (∀ marker s (ls : List Yaml), pyStartsWith (pyLower s) marker = true →
        scanLabels marker (Yaml.str s :: ls) = some (pyUpper (afterColon s))) := by
  have hgl : getLabels r = [] := by
    unfold getLabels
    rw [hnull]
  refine ⟨hgl, ?_, ?_, ?_⟩
  · intro hp
    unfold normalise_priority
    rw [hp, hgl]
    rfl
  · intro marker y ls hns
    cases y with
    | str s => exact absurd rfl (hns s)
    | null => rfl
    | bool b => rfl
    | int n => rfl
    | list xs => rfl
    | map m => rfl
  · intro marker s ls hpre
    simp only [scanLabels]
    rw [if_pos hpre]

/-- Witness for C10 at a record with a null labels field, and a concrete
scan that skips a non-string entry before a matching string label. -/
theorem C10_witness :
    lookupY "labels" [("labels", Yaml.null)] = some Yaml.null
    ∧ getLabels [("labels", Yaml.null)] = []
    ∧ normalise_priority [("labels", Yaml.null)] = "P3"
    ∧ scanLabels "priority:" [Yaml.int 5, Yaml.str "priority:p1"]
        = some (pyUpper (afterColon "priority:p1")) := by
  have h := C10_labels [("labels", Yaml.null)] rfl
  refine ⟨rfl, h.1, h.2.1 rfl, ?_⟩
  rw [h.2.2.1 "priority:" (Yaml.int 5) [Yaml.str "priority:p1"]
    (fun s hs => Yaml.noConfusion hs)]
  exact h.2.2.2 "priority:" "priority:p1" [] rfl
